import Mathlib

/-!
Shallow embedding of the segmentation pipeline in `js/sam.js`
(`segmentBoxOnCanvas`, `resampleMaskTo`, `maskToGeoJSON`) together with
theorems checking the natural-language specification against it.

Conventions of the embedding:
* RGBA byte buffers (canvas `ImageData.data`) are total functions `ℕ → ℕ`
  giving the byte at each flat index; out-of-range reads of typed arrays
  yield `undefined`, which every consumer in the source coerces to `0`,
  so list reads are modelled with `List.getD _ 0`.
* JS numbers appearing as box coordinates are exact rationals; `Math.floor`
  is `Rat.floor`; `Math.max(0/1, ·)` composes with `Int.toNat` / `max`.
* The ONNX runtime is an external oracle: a session carries its declared
  input names and, for each input name tried, either throws (`none`) or
  returns an output tensor (`some`), matching the `try`/`catch` per input
  name in the source.  Tensor payloads are exact rationals.
-/

namespace Sam

/-- A source raster: canvas pixel data, RGBA row-major, as byte reads. -/
structure Raster where
  width : ℕ
  height : ℕ
  data : ℕ → ℕ

/-- A bounding box `{x, y, w, h}` in canvas coordinates (JS numbers). -/
structure Box where
  x : ℚ
  y : ℚ
  w : ℚ
  h : ℚ

/-- Output tensor of a successful `ortSession.run`: flat data plus dims. -/
structure RunOut where
  data : ℕ → ℚ
  dims : List ℕ

/-- A loaded model session: declared input names (if any) and the runtime
call, which for a given input name either throws (`none`) or yields the
first output tensor (`some`). -/
structure Session where
  inputNames : Option (List String)
  run : String → Option RunOut

/-- Result of `segmentBoxOnCanvas`: `{mask, width, height}`. -/
structure SegResult where
  mask : List ℕ
  width : ℕ
  height : ℕ
  deriving DecidableEq

/-- The fallback list of input names tried when the session declares none:
`['input', 'images', 'image', 'input_image']`. -/
def defaultInputNames : List String := ["input", "images", "image", "input_image"]

/-- Byte `idx` of the `sw`-wide crop canvas after
`ctx.drawImage(sourceCanvas, sx, sy, sw, sh, 0, 0, sw, sh)`: the source
pixel when in bounds, else transparent black (canvases start transparent;
out-of-source-bounds pixels are simply not drawn). -/
def cropByte (src : Raster) (sx sy sw : ℕ) (idx : ℕ) : ℕ :=
  let p := idx / 4
  let c := idx % 4
  let x := p % sw
  let y := p / sw
  if sx + x < src.width ∧ sy + y < src.height then
    src.data (((sy + y) * src.width + (sx + x)) * 4 + c)
  else 0

/-- The blue-ish test of the fallback branch:
`(b > 100) && (b > r + 30) && (b > g + 20)`. -/
def isBlue (r g b : ℕ) : Bool :=
  decide (b > 100) && decide (b > r + 30) && decide (b > g + 20)

/-- The fallback colour-threshold mask: for `y` in `0..sh`, `x` in `0..sw`,
`mask[y*sw + x] = isBlue(r, g, b) ? 255 : 0` where `r, g, b` are read at
`idx = (y*sw + x)*4`. -/
def fallbackMask (cropData : ℕ → ℕ) (sw sh : ℕ) : List ℕ :=
  (List.range sh).flatMap fun y =>
    (List.range sw).map fun x =>
      let idx := (y * sw + x) * 4
      if isBlue (cropData idx) (cropData (idx + 1)) (cropData (idx + 2)) then 255 else 0

/-- `resampleMaskTo(mask, w, h, tw, th)`: nearest-neighbour resample;
`out[yy*tw + xx] = mask[floor(yy*h/th)*w + floor(xx*w/tw)]`. -/
def resampleMaskTo (mask : List ℕ) (w h tw th : ℕ) : List ℕ :=
  (List.range th).flatMap fun yy =>
    (List.range tw).map fun xx =>
      mask.getD (yy * h / th * w + xx * w / tw) 0

/-- First input name whose `ortSession.run` call succeeds, in order; the
source's `for (const name of inputNamesToTry) { try ... catch continue }`. -/
def firstSuccess (run : String → Option RunOut) : List String → Option RunOut
  | [] => none
  | n :: rest =>
    match run n with
    | some out => some out
    | none => firstSuccess run rest

/-- The model-inference branch given a ready session: try each input name;
on the first success take the first output, read `ow`/`oh` from the last
two dims, threshold the data at `0.5` into `0`/`255`, and resample to
`(sw, sh)`.  `none` means every attempt threw, so the caller falls back. -/
def modelBranch (s : Session) (sw sh : ℕ) : Option (List ℕ) :=
  match firstSuccess s.run (s.inputNames.getD defaultInputNames) with
  | none => none
  | some out =>
    let ow := out.dims.getD (out.dims.length - 1) 0
    let oh := out.dims.getD (out.dims.length - 2) 0
    let mask := (List.range (ow * oh)).map fun i =>
      if (1 : ℚ) / 2 < out.data i then 255 else 0
    some (resampleMaskTo mask ow oh sw sh)

/-- `segmentBoxOnCanvas(sourceCanvas, box)`: clamp the box, crop, run the
model branch when a session is ready (`modelReady && ortSession`), and fall
back to the colour-threshold mask when no session is ready or every
inference attempt failed. -/
def segmentBoxOnCanvas (src : Raster) (box : Box) (session : Option Session) : SegResult :=
  let sx := (⌊box.x⌋).toNat
  let sy := (⌊box.y⌋).toNat
  let sw := (max 1 ⌊box.w⌋).toNat
  let sh := (max 1 ⌊box.h⌋).toNat
  let cropData := cropByte src sx sy sw
  match session with
  | some s =>
    match modelBranch s sw sh with
    | some m => ⟨m, sw, sh⟩
    | none => ⟨fallbackMask cropData sw sh, sw, sh⟩
  | none => ⟨fallbackMask cropData sw sh, sw, sh⟩

/-! ### Model input tensor (`floatData`) -/

/-- The fixed model input size `MODEL_SIZE = 1024`. -/
def MODEL_SIZE : ℕ := 1024

/-- The float buffer built by the preprocessing loop
`for (i = 0, p = 0; i < imgData.data.length; i += 4, p++)`: positions
`p*3`, `p*3+1`, `p*3+2` hold `data[i] / 255`, `data[i+1] / 255`,
`data[i+2] / 255` — per-pixel interleaved RGB. -/
def floatData (data : ℕ → ℕ) (S : ℕ) : List ℚ :=
  (List.range (S * S)).flatMap fun p =>
    [(data (4 * p) : ℚ) / 255, (data (4 * p + 1) : ℚ) / 255, (data (4 * p + 2) : ℚ) / 255]

/-- The layout the spec describes for a `[1, 3, S, S]` tensor: channel-first,
all `S*S` red samples, then all green, then all blue, each divided by 255.
Written from the spec's words, to be compared against `floatData`. -/
def channelFirstTensor (data : ℕ → ℕ) (S : ℕ) : List ℚ :=
  (List.range 3).flatMap fun c =>
    (List.range (S * S)).map fun p => (data (4 * p + c) : ℚ) / 255

/-! ### Boundary tracing (`maskToGeoJSON`) -/

/-- The 8-connected clockwise neighbour offsets used by the tracer. -/
def directions : List (ℤ × ℤ) :=
  [(-1, 0), (-1, -1), (0, -1), (1, -1), (1, 0), (1, 1), (0, 1), (-1, 1)]

/-- Why the tracing loop stopped. -/
inductive StopReason where
  | noNeighbor
  | closedLoop
  | guardExhausted
  deriving DecidableEq

/-- State when the tracing loop stops: collected coordinates, the current
pixel index, the last direction index, and the reason for stopping. -/
structure TraceState where
  coords : List (ℤ × ℤ)
  curr : ℕ
  prevDir : ℕ
  reason : StopReason

/-- One neighbour probe at clockwise offset `d` from `prevDir - 1`:
`some (ni, di)` when the neighbour is in bounds and foreground. -/
def tryDir (bin : ℕ → Bool) (width height cx cy prevDir d : ℕ) : Option (ℕ × ℕ) :=
  let di := (prevDir + 7 + d) % 8
  let dir := directions.getD di (0, 0)
  let nx := (cx : ℤ) + dir.1
  let ny := (cy : ℤ) + dir.2
  if 0 ≤ nx ∧ nx < (width : ℤ) ∧ 0 ≤ ny ∧ ny < (height : ℤ) then
    let ni := (ny * width + nx).toNat
    if bin ni then some (ni, di) else none
  else none

/-- The neighbour search `for (let d = 0; d < 8; d++)`: the first in-bounds
foreground neighbour clockwise starting one position counter-clockwise from
`prevDir`, as `(new index, direction index)`. -/
def findNeighbor (bin : ℕ → Bool) (width height cx cy prevDir : ℕ) : Option (ℕ × ℕ) :=
  (List.range 8).findSome? (tryDir bin width height cx cy prevDir)

/-- The tracing loop `while (!done && loopGuard++ < 1000000)`: push the
current pixel (plus offsets), search for a neighbour; stop when none is
found, or when the walk has returned to the start with more than 20 points
collected, or when the guard is exhausted. -/
def traceLoop (bin : ℕ → Bool) (width height start : ℕ) (ox oy : ℤ) :
    ℕ → ℕ → ℕ → List (ℤ × ℤ) → TraceState
  | 0, curr, prevDir, coords => ⟨coords, curr, prevDir, .guardExhausted⟩
  | fuel + 1, curr, prevDir, coords =>
    match findNeighbor bin width height (curr % width) (curr / width) prevDir with
    | none =>
      ⟨coords ++ [(((curr % width : ℕ) : ℤ) + ox, ((curr / width : ℕ) : ℤ) + oy)],
        curr, prevDir, .noNeighbor⟩
    | some (ni, di) =>
      if ni = start ∧
          20 < (coords ++ [(((curr % width : ℕ) : ℤ) + ox, ((curr / width : ℕ) : ℤ) + oy)]).length
      then ⟨coords ++ [(((curr % width : ℕ) : ℤ) + ox, ((curr / width : ℕ) : ℤ) + oy)],
        ni, di, .closedLoop⟩
      else traceLoop bin width height start ox oy fuel ni di
        (coords ++ [(((curr % width : ℕ) : ℤ) + ox, ((curr / width : ℕ) : ℤ) + oy)])

/-- The absolute iteration ceiling of the tracing loop (`loopGuard`). -/
def LOOP_GUARD : ℕ := 1000000

/-- A GeoJSON `Feature` of geometry type `Polygon`: its rings. -/
structure Feature where
  coordinates : List (List (ℤ × ℤ))
  deriving DecidableEq

/-- A GeoJSON `FeatureCollection`. -/
structure FeatureCollection where
  features : List Feature
  deriving DecidableEq

/-- `maskToGeoJSON(mask, width, height, offsetX, offsetY)`: binarize, find
the first foreground pixel row-major (none ⇒ empty feature collection),
Moore-trace from it, and package the coordinates as a single-ring polygon. -/
def maskToGeoJSON (mask : List ℕ) (width height : ℕ) (ox oy : ℤ) : FeatureCollection :=
  let bin : ℕ → Bool := fun i => mask.getD i 0 != 0
  match (List.range (width * height)).find? bin with
  | none => ⟨[]⟩
  | some start =>
    let st := traceLoop bin width height start ox oy LOOP_GUARD start 0 []
    ⟨[⟨[st.coords]⟩]⟩

/-! ### Concrete inputs used to instantiate the theorems -/

/-- 4×4 mask whose foreground is the 2×2 square at rows/cols 1..2. -/
def mask4 : List ℕ :=
  (List.range 16).map fun i => if i = 5 ∨ i = 6 ∨ i = 9 ∨ i = 10 then 255 else 0

/-- 10×10 mask whose only foreground pixel is `(5, 5)` (index 55). -/
def mask10 : List ℕ := (List.range 100).map fun i => if i = 55 then 255 else 0

/-- The clockwise boundary cycle of `mask4`'s 2×2 square starting at its
first row-major foreground pixel `(1, 1)`. -/
def squareCycle : List (ℤ × ℤ) := [(1, 1), (2, 1), (2, 2), (1, 2)]

/-- A crop whose every pixel is `(R, G, B, A) = (10, 10, 200, 10)`: blue-ish. -/
def exCrop : ℕ → ℕ := fun idx => if idx % 4 = 2 then 200 else 10

/-- A 1024×1024 RGBA image, all zero except byte 4 — pixel 1's red — which
is 200. -/
def exImage : ℕ → ℕ := fun idx => if idx = 4 then 200 else 0

/-- A 2×2 source raster whose bytes are all 77. -/
def exSrc : Raster := ⟨2, 2, fun _ => 77⟩

/-- The unit bounding box at the origin. -/
def exBox : Box := ⟨0, 0, 1, 1⟩

/-- A session that declares one input name and throws on every run. -/
def exSession : Session := ⟨some ["input_image"], fun _ => none⟩

/-! ### Helper lemmas about the row-major double loops -/

/-- Length of a row-major double loop with constant row length. -/
theorem flatMap_range_length {α : Type} (g : ℕ → List α) (c : ℕ)
    (hg : ∀ y, (g y).length = c) (n : ℕ) :
    ((List.range n).flatMap g).length = n * c := by
  induction n with
  | zero => simp
  | succ n ih =>
    rw [List.range_succ, List.flatMap_append, List.length_append, ih]
    simp [hg, Nat.succ_mul]

/-- Element `y*c + x` of a row-major double loop is element `x` of row `y`. -/
theorem flatMap_range_getD {α : Type} (g : ℕ → List α) (c : ℕ)
    (hg : ∀ y, (g y).length = c) (n y x : ℕ) (hy : y < n) (hx : x < c) (d : α) :
    ((List.range n).flatMap g).getD (y * c + x) d = (g y).getD x d := by
  induction n with
  | zero => omega
  | succ n ih =>
    rw [List.range_succ, List.flatMap_append]
    rcases Nat.lt_succ_iff_lt_or_eq.mp hy with h | rfl
    · have hlt : y * c + x < ((List.range n).flatMap g).length := by
        rw [flatMap_range_length g c hg n]
        have : y * c + x < (y + 1) * c := by rw [Nat.succ_mul]; omega
        exact lt_of_lt_of_le this (Nat.mul_le_mul_right c h)
      rw [List.getD_append _ _ _ _ hlt]
      exact ih h
    · have hge : ((List.range y).flatMap g).length ≤ y * c + x := by
        rw [flatMap_range_length g c hg y]; omega
      rw [List.getD_append_right _ _ _ _ hge, flatMap_range_length g c hg y,
        Nat.add_sub_cancel_left]
      simp

/-- Every element of a row-major double loop belongs to some row. -/
theorem flatMap_range_mem {α : Type} (g : ℕ → List α) (n : ℕ) (v : α)
    (hv : v ∈ (List.range n).flatMap g) : ∃ y, y < n ∧ v ∈ g y := by
  rcases List.mem_flatMap.mp hv with ⟨y, hy, hvy⟩
  exact ⟨y, List.mem_range.mp hy, hvy⟩

/-- `getD` over a mapped range evaluates the function when in bounds. -/
theorem map_range_getD {α : Type} (f : ℕ → α) (c x : ℕ) (hx : x < c) (d : α) :
    ((List.range c).map f).getD x d = f x := by
  have hx' : x < ((List.range c).map f).length := by simpa using hx
  rw [List.getD_eq_getElem _ _ hx']
  simp

/-- `getD` either returns the default or a member of the list. -/
theorem getD_mem_or {α : Type} (l : List α) (n : ℕ) (d : α) :
    l.getD n d = d ∨ l.getD n d ∈ l := by
  by_cases h : n < l.length
  · right
    rw [List.getD_eq_getElem l d h]
    exact List.getElem_mem h
  · left
    exact List.getD_eq_default l d (le_of_not_lt h)

/-- The fallback mask has one byte per crop pixel. -/
theorem fallbackMask_length (cropData : ℕ → ℕ) (sw sh : ℕ) :
    (fallbackMask cropData sw sh).length = sw * sh := by
  rw [fallbackMask, flatMap_range_length _ sw (fun y => by simp) sh, Nat.mul_comm]

/-- Pixel `(x, y)` of the fallback mask. -/
theorem fallbackMask_getD (cropData : ℕ → ℕ) (sw sh x y : ℕ) (hx : x < sw) (hy : y < sh) :
    (fallbackMask cropData sw sh).getD (y * sw + x) 0 =
      if isBlue (cropData ((y * sw + x) * 4)) (cropData ((y * sw + x) * 4 + 1))
          (cropData ((y * sw + x) * 4 + 2)) then 255 else 0 := by
  rw [fallbackMask, flatMap_range_getD _ sw (fun y => by simp) sh y x hy hx,
    map_range_getD _ sw x hx]

/-- Every fallback mask byte is `0` or `255`. -/
theorem fallbackMask_mem (cropData : ℕ → ℕ) (sw sh : ℕ) (v : ℕ)
    (hv : v ∈ fallbackMask cropData sw sh) : v = 0 ∨ v = 255 := by
  rcases flatMap_range_mem _ sh v hv with ⟨y, _, hvy⟩
  rcases List.mem_map.mp hvy with ⟨x, _, hvx⟩
  dsimp only at hvx
  split at hvx
  · right; omega
  · left; omega

/-- The resampled mask has one byte per target pixel. -/
theorem resampleMaskTo_length (mask : List ℕ) (w h tw th : ℕ) :
    (resampleMaskTo mask w h tw th).length = tw * th := by
  rw [resampleMaskTo, flatMap_range_length _ tw (fun y => by simp) th, Nat.mul_comm]

/-- Target pixel `(xx, yy)` of the resampled mask reads source pixel
`(xx*w/tw, yy*h/th)`. -/
theorem resampleMaskTo_getD (mask : List ℕ) (w h tw th xx yy : ℕ)
    (hx : xx < tw) (hy : yy < th) :
    (resampleMaskTo mask w h tw th).getD (yy * tw + xx) 0 =
      mask.getD (yy * h / th * w + xx * w / tw) 0 := by
  rw [resampleMaskTo, flatMap_range_getD _ tw (fun y => by simp) th yy xx hy hx,
    map_range_getD _ tw xx hx]

/-- Every byte of the resampled mask is a source byte or the default `0`. -/
theorem resampleMaskTo_mem (mask : List ℕ) (w h tw th : ℕ) (v : ℕ)
    (hv : v ∈ resampleMaskTo mask w h tw th) : v = 0 ∨ v ∈ mask := by
  rcases flatMap_range_mem _ th v hv with ⟨yy, _, hvy⟩
  rcases List.mem_map.mp hvy with ⟨xx, _, hvx⟩
  rcases getD_mem_or mask (yy * h / th * w + xx * w / tw) 0 with h0 | hmem
  · left; omega
  · right; rw [← hvx]; exact hmem

/-- When every input name's run attempt throws, no attempt succeeds. -/
theorem firstSuccess_eq_none (run : String → Option RunOut) (names : List String)
    (h : ∀ n ∈ names, run n = none) : firstSuccess run names = none := by
  induction names with
  | nil => rfl
  | cons n rest ih =>
    have hn : run n = none := h n (List.mem_cons_self n rest)
    rw [firstSuccess, hn]
    exact ih fun m hm => h m (List.mem_cons_of_mem n hm)

/-- The blue-ish test unfolded into its arithmetic form. -/
theorem isBlue_iff (r g b : ℕ) :
    isBlue r g b = true ↔ (100 < b ∧ r + 30 < b ∧ g + 20 < b) := by
  simp only [isBlue, Bool.and_eq_true, decide_eq_true_eq, gt_iff_lt]
  tauto

/-! ### Claim theorems -/

/-- C2: the Threshold Classifier is a pure per-pixel function: for every
RGBA crop and every pixel `(x, y)` with channel values `(R, G, B)`, the
fallback branch sets the mask byte to `255` if and only if
`B > 100 ∧ B > R + 30 ∧ B > G + 20`, and to `0` otherwise. -/
theorem fallbackMask_pixel_rule (cropData : ℕ → ℕ) (sw sh x y : ℕ)
    (hx : x < sw) (hy : y < sh) :
    ((fallbackMask cropData sw sh).getD (y * sw + x) 0 = 255 ↔
      (100 < cropData ((y * sw + x) * 4 + 2) ∧
       cropData ((y * sw + x) * 4) + 30 < cropData ((y * sw + x) * 4 + 2) ∧
       cropData ((y * sw + x) * 4 + 1) + 20 < cropData ((y * sw + x) * 4 + 2))) ∧
    ((fallbackMask cropData sw sh).getD (y * sw + x) 0 = 0 ↔
      ¬ (100 < cropData ((y * sw + x) * 4 + 2) ∧
         cropData ((y * sw + x) * 4) + 30 < cropData ((y * sw + x) * 4 + 2) ∧
         cropData ((y * sw + x) * 4 + 1) + 20 < cropData ((y * sw + x) * 4 + 2))) := by
  rw [fallbackMask_getD cropData sw sh x y hx hy]
  by_cases hp : (100 < cropData ((y * sw + x) * 4 + 2) ∧
      cropData ((y * sw + x) * 4) + 30 < cropData ((y * sw + x) * 4 + 2) ∧
      cropData ((y * sw + x) * 4 + 1) + 20 < cropData ((y * sw + x) * 4 + 2))
  · rw [if_pos ((isBlue_iff _ _ _).mpr hp)]
    omega
  · rw [if_neg (fun hb => hp ((isBlue_iff _ _ _).mp hb))]
    omega

/-- C2 witness: the rule instantiated on the all-blue crop at pixel
`(1, 0)` of a 2×1 crop. -/
theorem fallbackMask_pixel_rule_witness :
    ((fallbackMask exCrop 2 1).getD (0 * 2 + 1) 0 = 255 ↔
      (100 < exCrop ((0 * 2 + 1) * 4 + 2) ∧
       exCrop ((0 * 2 + 1) * 4) + 30 < exCrop ((0 * 2 + 1) * 4 + 2) ∧
       exCrop ((0 * 2 + 1) * 4 + 1) + 20 < exCrop ((0 * 2 + 1) * 4 + 2))) ∧
    ((fallbackMask exCrop 2 1).getD (0 * 2 + 1) 0 = 0 ↔
      ¬ (100 < exCrop ((0 * 2 + 1) * 4 + 2) ∧
         exCrop ((0 * 2 + 1) * 4) + 30 < exCrop ((0 * 2 + 1) * 4 + 2) ∧
         exCrop ((0 * 2 + 1) * 4 + 1) + 20 < exCrop ((0 * 2 + 1) * 4 + 2))) :=
  fallbackMask_pixel_rule exCrop 2 1 1 0 (by decide) (by decide)

/-- C7: for every mask with zero foreground pixels, `maskToGeoJSON` returns
a feature collection with an empty features list. -/
theorem maskToGeoJSON_all_background (mask : List ℕ) (w h : ℕ) (ox oy : ℤ)
    (hm : ∀ v ∈ mask, v = 0) :
    maskToGeoJSON mask w h ox oy = ⟨[]⟩ := by
  have hfind : (List.range (w * h)).find? (fun i => mask.getD i 0 != 0) = none := by
    rw [List.find?_eq_none]
    intro i _
    have h0 : mask.getD i 0 = 0 := by
      rcases getD_mem_or mask i 0 with h0 | hmem
      · exact h0
      · exact hm _ hmem
    simp only [h0]
    decide
  simp only [maskToGeoJSON]
  rw [hfind]

/-- C7 witness: the all-background 2×1 mask yields no features. -/
theorem maskToGeoJSON_all_background_witness :
    maskToGeoJSON [0, 0] 2 1 0 0 = ⟨[]⟩ :=
  maskToGeoJSON_all_background [0, 0] 2 1 0 0 (by decide)

/-- C9: `resampleMaskTo` samples source pixel
`(floor(xx*w/tw), floor(yy*h/th))` for each target pixel `(xx, yy)`, its
output length is always `tw*th`, and it is the identity when the target
size equals the source size. -/
theorem resampleMaskTo_spec (m : List ℕ) (w h tw th : ℕ) (hm : m.length = w * h) :
    (resampleMaskTo m w h tw th).length = tw * th ∧
    (∀ yy xx, yy < th → xx < tw →
      (resampleMaskTo m w h tw th).getD (yy * tw + xx) 0 =
        m.getD (yy * h / th * w + xx * w / tw) 0) ∧
    resampleMaskTo m w h w h = m := by
  refine ⟨resampleMaskTo_length m w h tw th,
    fun yy xx hy hx => resampleMaskTo_getD m w h tw th xx yy hx hy, ?_⟩
  have hlen : (resampleMaskTo m w h w h).length = m.length := by
    rw [resampleMaskTo_length, hm]
  apply List.ext_getElem hlen
  intro i h1 h2
  have hw : 0 < w := by
    rcases Nat.eq_zero_or_pos w with rfl | hw
    · rw [hm, Nat.zero_mul] at h2; omega
    · exact hw
  have hh : 0 < h := by
    rcases Nat.eq_zero_or_pos h with rfl | hh
    · rw [hm, Nat.mul_zero] at h2; omega
    · exact hh
  have hiwh : i < w * h := by rw [← hm]; exact h2
  have hxlt : i % w < w := Nat.mod_lt i hw
  have hylt : i / w < h := by
    rw [Nat.div_lt_iff_lt_mul hw]
    rw [Nat.mul_comm] at hiwh
    exact hiwh
  have hi : i / w * w + i % w = i := by
    have h := Nat.div_add_mod i w
    rw [Nat.mul_comm] at h
    exact h
  rw [← List.getD_eq_getElem _ 0 h1, ← List.getD_eq_getElem _ 0 h2, ← hi,
    resampleMaskTo_getD m w h w h (i % w) (i / w) hxlt hylt,
    Nat.mul_div_cancel _ hh, Nat.mul_div_cancel _ hw]

/-- C9 witness: the spec instantiated on a concrete 2×2 mask. -/
theorem resampleMaskTo_spec_witness :
    resampleMaskTo [0, 255, 255, 0] 2 2 2 2 = [0, 255, 255, 0] :=
  (resampleMaskTo_spec [0, 255, 255, 0] 2 2 2 2 (by decide)).2.2

/-- C10: for source and target dimensions at least 1 and a mask of length
`w*h`, every source index read by `resampleMaskTo` is in bounds, and every
output byte is an actual element of the source mask. -/
theorem resampleMaskTo_in_bounds (m : List ℕ) (w h tw th : ℕ)
    (hw : 1 ≤ w) (hh : 1 ≤ h) (htw : 1 ≤ tw) (hth : 1 ≤ th) (hm : m.length = w * h) :
    (∀ yy xx, yy < th → xx < tw →
      xx * w / tw < w ∧ yy * h / th < h ∧
      yy * h / th * w + xx * w / tw < m.length) ∧
    ∀ v ∈ resampleMaskTo m w h tw th, v ∈ m := by
  have hbounds : ∀ yy xx, yy < th → xx < tw →
      xx * w / tw < w ∧ yy * h / th < h ∧
      yy * h / th * w + xx * w / tw < m.length := by
    intro yy xx hy hx
    have hsx : xx * w / tw < w := by
      rw [Nat.div_lt_iff_lt_mul htw, Nat.mul_comm w tw]
      exact (Nat.mul_lt_mul_right hw).mpr hx
    have hsy : yy * h / th < h := by
      rw [Nat.div_lt_iff_lt_mul hth, Nat.mul_comm h th]
      exact (Nat.mul_lt_mul_right hh).mpr hy
    refine ⟨hsx, hsy, ?_⟩
    have h1 : yy * h / th * w + xx * w / tw < (yy * h / th + 1) * w := by
      rw [Nat.succ_mul]; omega
    have h2 : (yy * h / th + 1) * w ≤ h * w := Nat.mul_le_mul_right w hsy
    rw [hm, Nat.mul_comm w h]
    omega
  refine ⟨hbounds, ?_⟩
  intro v hv
  rcases flatMap_range_mem _ th v hv with ⟨yy, hyy, hrow⟩
  rcases List.mem_map.mp hrow with ⟨xx, hxx, hvx⟩
  have hxx' : xx < tw := List.mem_range.mp hxx
  have hidx := (hbounds yy xx hyy hxx').2.2
  rw [← hvx, List.getD_eq_getElem _ 0 hidx]
  exact List.getElem_mem hidx

/-- C10 witness: a 2×1 mask resampled to 3×2 reads only in-bounds pixels. -/
theorem resampleMaskTo_in_bounds_witness :
    (0 * 2 / 3 < 2 ∧ 0 * 1 / 2 < 1 ∧ 0 * 1 / 2 * 2 + 0 * 2 / 3 < ([7, 9] : List ℕ).length) ∧
    ∀ v ∈ resampleMaskTo [7, 9] 2 1 3 2, v ∈ ([7, 9] : List ℕ) :=
  ⟨(resampleMaskTo_in_bounds [7, 9] 2 1 3 2 (by decide) (by decide) (by decide) (by decide)
      (by decide)).1 0 0 (by decide) (by decide),
   (resampleMaskTo_in_bounds [7, 9] 2 1 3 2 (by decide) (by decide) (by decide) (by decide)
      (by decide)).2⟩

/-- Entries of the model branch's thresholded mask are `0` or `255`. -/
theorem thresholdMask_mem (dataq : ℕ → ℚ) (n : ℕ) (v : ℕ)
    (hv : v ∈ (List.range n).map fun i => if (1 : ℚ) / 2 < dataq i then 255 else 0) :
    v = 0 ∨ v = 255 := by
  rcases List.mem_map.mp hv with ⟨i, _, hvi⟩
  split at hvi
  · right; omega
  · left; omega

/-- C1: `segmentBoxOnCanvas` never raises an error: the clamped crop is
always at least 1×1, and when the session is ready but every input-name
inference attempt throws, the result is exactly the Threshold Classifier's
mask on the same crop, with the crop's dimensions. -/
theorem segmentBoxOnCanvas_all_throws (src : Raster) (box : Box) (s : Session)
    (h : ∀ n ∈ s.inputNames.getD defaultInputNames, s.run n = none) :
    1 ≤ (max 1 ⌊box.w⌋).toNat ∧ 1 ≤ (max 1 ⌊box.h⌋).toNat ∧
    segmentBoxOnCanvas src box (some s) =
      ⟨fallbackMask
          (cropByte src (⌊box.x⌋).toNat (⌊box.y⌋).toNat (max 1 ⌊box.w⌋).toNat)
          ((max 1 ⌊box.w⌋).toNat) ((max 1 ⌊box.h⌋).toNat),
        (max 1 ⌊box.w⌋).toNat, (max 1 ⌊box.h⌋).toNat⟩ := by
  refine ⟨?_, ?_, ?_⟩
  · have h1 : (1 : ℤ) ≤ max 1 ⌊box.w⌋ := le_max_left 1 ⌊box.w⌋
    omega
  · have h1 : (1 : ℤ) ≤ max 1 ⌊box.h⌋ := le_max_left 1 ⌊box.h⌋
    omega
  · simp only [segmentBoxOnCanvas, modelBranch, firstSuccess_eq_none s.run _ h]

/-- C1 witness: a session that throws on its one declared input name, on a
2×2 raster and the unit box. -/
theorem segmentBoxOnCanvas_all_throws_witness :
    1 ≤ (max 1 ⌊exBox.w⌋).toNat ∧ 1 ≤ (max 1 ⌊exBox.h⌋).toNat ∧
    segmentBoxOnCanvas exSrc exBox (some exSession) =
      ⟨fallbackMask
          (cropByte exSrc (⌊exBox.x⌋).toNat (⌊exBox.y⌋).toNat (max 1 ⌊exBox.w⌋).toNat)
          ((max 1 ⌊exBox.w⌋).toNat) ((max 1 ⌊exBox.h⌋).toNat),
        (max 1 ⌊exBox.w⌋).toNat, (max 1 ⌊exBox.h⌋).toNat⟩ :=
  segmentBoxOnCanvas_all_throws exSrc exBox exSession (by intro n _; rfl)

/-- C3: every result of `segmentBoxOnCanvas`, on the model branch as well
as on the fallback branch, satisfies the Mask invariant: width
`max(1, floor(box.w))`, height `max(1, floor(box.h))`, mask length
`width*height`, and every mask byte `0` or `255`. -/
theorem segmentBoxOnCanvas_mask_invariant (src : Raster) (box : Box)
    (session : Option Session) :
    (segmentBoxOnCanvas src box session).width = (max 1 ⌊box.w⌋).toNat ∧
    (segmentBoxOnCanvas src box session).height = (max 1 ⌊box.h⌋).toNat ∧
    (segmentBoxOnCanvas src box session).mask.length =
      (segmentBoxOnCanvas src box session).width *
        (segmentBoxOnCanvas src box session).height ∧
    ∀ v ∈ (segmentBoxOnCanvas src box session).mask, v = 0 ∨ v = 255 := by
  rcases session with _ | s
  · have hr : segmentBoxOnCanvas src box none =
        ⟨fallbackMask
            (cropByte src (⌊box.x⌋).toNat (⌊box.y⌋).toNat (max 1 ⌊box.w⌋).toNat)
            ((max 1 ⌊box.w⌋).toNat) ((max 1 ⌊box.h⌋).toNat),
          (max 1 ⌊box.w⌋).toNat, (max 1 ⌊box.h⌋).toNat⟩ := rfl
    rw [hr]
    exact ⟨rfl, rfl, by rw [fallbackMask_length], fun v hv => fallbackMask_mem _ _ _ v hv⟩
  · rcases hmb : modelBranch s ((max 1 ⌊box.w⌋).toNat) ((max 1 ⌊box.h⌋).toNat) with _ | m
    · have hr : segmentBoxOnCanvas src box (some s) =
          ⟨fallbackMask
              (cropByte src (⌊box.x⌋).toNat (⌊box.y⌋).toNat (max 1 ⌊box.w⌋).toNat)
              ((max 1 ⌊box.w⌋).toNat) ((max 1 ⌊box.h⌋).toNat),
            (max 1 ⌊box.w⌋).toNat, (max 1 ⌊box.h⌋).toNat⟩ := by
        simp only [segmentBoxOnCanvas, hmb]
      rw [hr]
      exact ⟨rfl, rfl, by rw [fallbackMask_length], fun v hv => fallbackMask_mem _ _ _ v hv⟩
    · have hr : segmentBoxOnCanvas src box (some s) =
          ⟨m, (max 1 ⌊box.w⌋).toNat, (max 1 ⌊box.h⌋).toNat⟩ := by
        simp only [segmentBoxOnCanvas, hmb]
      rw [hr]
      rw [modelBranch] at hmb
      rcases hfs : firstSuccess s.run (s.inputNames.getD defaultInputNames) with _ | out
      · rw [hfs] at hmb
        exact absurd hmb (by simp)
      · rw [hfs] at hmb
        simp only [Option.some.injEq] at hmb
        refine ⟨rfl, rfl, ?_, ?_⟩
        · rw [← hmb, resampleMaskTo_length]
        · intro v hv
          rw [← hmb] at hv
          rcases resampleMaskTo_mem _ _ _ _ _ v hv with h0 | hmem
          · left; exact h0
          · exact thresholdMask_mem _ _ v hmem

/-- C5 (divergence at the failing input): the preprocessing loop builds a
flat normalized float buffer of length `3*S*S`, but in per-pixel
interleaved RGB order, not the channel-first layout required by the
declared `[1, 3, S, S]` tensor shape: at flat index 1 the code stores
pixel 0's green sample (`0`), while a channel-first buffer of the same
image holds pixel 1's red sample (`200/255`). -/
theorem floatData_not_channelFirst :
    (floatData exImage MODEL_SIZE).length = 3 * (MODEL_SIZE * MODEL_SIZE) ∧
    (channelFirstTensor exImage MODEL_SIZE).length = 3 * (MODEL_SIZE * MODEL_SIZE) ∧
    (floatData exImage MODEL_SIZE).getD 1 0 = 0 ∧
    (channelFirstTensor exImage MODEL_SIZE).getD 1 0 = 200 / 255 ∧
    floatData exImage MODEL_SIZE ≠ channelFirstTensor exImage MODEL_SIZE := by
  have hS : 1 < MODEL_SIZE * MODEL_SIZE := by decide
  have h1 : (floatData exImage MODEL_SIZE).length = MODEL_SIZE * MODEL_SIZE * 3 := by
    rw [floatData]
    apply flatMap_range_length
    intro p
    rfl
  have h2 : (channelFirstTensor exImage MODEL_SIZE).length = 3 * (MODEL_SIZE * MODEL_SIZE) := by
    rw [channelFirstTensor]
    apply flatMap_range_length
    intro c
    simp
  have h3 : (floatData exImage MODEL_SIZE).getD (0 * 3 + 1) 0 = 0 := by
    rw [floatData, flatMap_range_getD
      (fun p => [(exImage (4 * p) : ℚ) / 255, (exImage (4 * p + 1) : ℚ) / 255,
        (exImage (4 * p + 2) : ℚ) / 255]) 3 (fun p => rfl) (MODEL_SIZE * MODEL_SIZE) 0 1
      (by decide) (by omega) 0]
    norm_num [exImage]
  have h3' : (floatData exImage MODEL_SIZE).getD 1 0 = 0 := by
    rw [show 1 = 0 * 3 + 1 by norm_num] at h3 ⊢
    exact h3
  have h4 : (channelFirstTensor exImage MODEL_SIZE).getD (0 * (MODEL_SIZE * MODEL_SIZE) + 1) 0 =
      200 / 255 := by
    rw [channelFirstTensor, flatMap_range_getD
      (fun c => (List.range (MODEL_SIZE * MODEL_SIZE)).map fun p => (exImage (4 * p + c) : ℚ) / 255)
      (MODEL_SIZE * MODEL_SIZE) (fun c => by simp) 3 0 1 (by omega) hS 0,
      map_range_getD _ _ 1 hS]
    norm_num [exImage]
  have h4' : (channelFirstTensor exImage MODEL_SIZE).getD 1 0 = 200 / 255 := by
    rw [show (0 * (MODEL_SIZE * MODEL_SIZE) + 1) = 1 by norm_num] at h4
    exact h4
  refine ⟨by rw [h1, Nat.mul_comm], h2, h3', h4', ?_⟩
  intro heq
  rw [heq, h4'] at h3'
  norm_num at h3'

/-- General bound and stop-reason characterisation of the tracing loop:
it collects at most one point per fuel unit, and it stops either because
the current pixel has no in-bounds foreground neighbour, or because the
walk returned to the start pixel with more than 20 points collected, or
because the fuel (iteration guard) ran out — in which case it ran exactly
`fuel` iterations. -/
theorem traceLoop_spec (bin : ℕ → Bool) (width height start : ℕ) (ox oy : ℤ) :
    ∀ (fuel curr prevDir : ℕ) (acc : List (ℤ × ℤ)),
      (traceLoop bin width height start ox oy fuel curr prevDir acc).coords.length ≤
        acc.length + fuel ∧
      (((traceLoop bin width height start ox oy fuel curr prevDir acc).reason =
            StopReason.noNeighbor ∧
          findNeighbor bin width height
            ((traceLoop bin width height start ox oy fuel curr prevDir acc).curr % width)
            ((traceLoop bin width height start ox oy fuel curr prevDir acc).curr / width)
            (traceLoop bin width height start ox oy fuel curr prevDir acc).prevDir = none) ∨
       ((traceLoop bin width height start ox oy fuel curr prevDir acc).reason =
            StopReason.closedLoop ∧
          (traceLoop bin width height start ox oy fuel curr prevDir acc).curr = start ∧
          20 < (traceLoop bin width height start ox oy fuel curr prevDir acc).coords.length) ∨
       ((traceLoop bin width height start ox oy fuel curr prevDir acc).reason =
            StopReason.guardExhausted ∧
          (traceLoop bin width height start ox oy fuel curr prevDir acc).coords.length =
            acc.length + fuel)) := by
  intro fuel
  induction fuel with
  | zero =>
    intro curr prevDir acc
    rw [traceLoop]
    exact ⟨by simp, Or.inr (Or.inr ⟨rfl, by simp⟩)⟩
  | succ fuel ih =>
    intro curr prevDir acc
    rcases hfn : findNeighbor bin width height (curr % width) (curr / width) prevDir
      with _ | ⟨ni, di⟩
    · have hstep : traceLoop bin width height start ox oy (fuel + 1) curr prevDir acc =
          ⟨acc ++ [(((curr % width : ℕ) : ℤ) + ox, ((curr / width : ℕ) : ℤ) + oy)],
            curr, prevDir, StopReason.noNeighbor⟩ := by
        rw [traceLoop, hfn]
      rw [hstep]
      exact ⟨by simp, Or.inl ⟨rfl, hfn⟩⟩
    · by_cases hc : ni = start ∧
          20 < (acc ++ [(((curr % width : ℕ) : ℤ) + ox, ((curr / width : ℕ) : ℤ) + oy)]).length
      · have hstep : traceLoop bin width height start ox oy (fuel + 1) curr prevDir acc =
            ⟨acc ++ [(((curr % width : ℕ) : ℤ) + ox, ((curr / width : ℕ) : ℤ) + oy)],
              ni, di, StopReason.closedLoop⟩ := by
          rw [traceLoop, hfn]
          dsimp only
          rw [if_pos hc]
        rw [hstep]
        refine ⟨?_, Or.inr (Or.inl ⟨rfl, hc.1, ?_⟩)⟩
        · simp only [List.length_append, List.length_cons, List.length_nil]
          omega
        · exact hc.2
      · have hstep : traceLoop bin width height start ox oy (fuel + 1) curr prevDir acc =
            traceLoop bin width height start ox oy fuel ni di
              (acc ++ [(((curr % width : ℕ) : ℤ) + ox, ((curr / width : ℕ) : ℤ) + oy)]) := by
          rw [traceLoop, hfn]
          dsimp only
          rw [if_neg hc]
        rw [hstep]
        have h := ih ni di
          (acc ++ [(((curr % width : ℕ) : ℤ) + ox, ((curr / width : ℕ) : ℤ) + oy)])
        refine ⟨?_, ?_⟩
        · refine le_trans h.1 ?_
          simp only [List.length_append, List.length_cons, List.length_nil]
          omega
        · rcases h.2 with h2 | h2 | h2
          · exact Or.inl h2
          · exact Or.inr (Or.inl h2)
          · refine Or.inr (Or.inr ⟨h2.1, ?_⟩)
            rw [h2.2]
            simp only [List.length_append, List.length_cons, List.length_nil]
            omega

/-- C6: for every mask and dimensions, the boundary-tracing loop of
`maskToGeoJSON` — entered with the absolute iteration ceiling
`LOOP_GUARD = 1000000` — terminates after at most `LOOP_GUARD` iterations,
stopping either because no in-bounds foreground neighbour was found, or
because the walk returned to the start pixel with more than 20 points
collected, or because the absolute iteration ceiling was reached. -/
theorem maskToGeoJSON_trace_terminates (mask : List ℕ) (width height start : ℕ) (ox oy : ℤ) :
    (traceLoop (fun i => mask.getD i 0 != 0) width height start ox oy
        LOOP_GUARD start 0 []).coords.length ≤ LOOP_GUARD ∧
    (((traceLoop (fun i => mask.getD i 0 != 0) width height start ox oy
          LOOP_GUARD start 0 []).reason = StopReason.noNeighbor ∧
        findNeighbor (fun i => mask.getD i 0 != 0) width height
          ((traceLoop (fun i => mask.getD i 0 != 0) width height start ox oy
              LOOP_GUARD start 0 []).curr % width)
          ((traceLoop (fun i => mask.getD i 0 != 0) width height start ox oy
              LOOP_GUARD start 0 []).curr / width)
          (traceLoop (fun i => mask.getD i 0 != 0) width height start ox oy
              LOOP_GUARD start 0 []).prevDir = none) ∨
     ((traceLoop (fun i => mask.getD i 0 != 0) width height start ox oy
          LOOP_GUARD start 0 []).reason = StopReason.closedLoop ∧
        (traceLoop (fun i => mask.getD i 0 != 0) width height start ox oy
            LOOP_GUARD start 0 []).curr = start ∧
        20 < (traceLoop (fun i => mask.getD i 0 != 0) width height start ox oy
            LOOP_GUARD start 0 []).coords.length) ∨
     ((traceLoop (fun i => mask.getD i 0 != 0) width height start ox oy
          LOOP_GUARD start 0 []).reason = StopReason.guardExhausted ∧
        (traceLoop (fun i => mask.getD i 0 != 0) width height start ox oy
            LOOP_GUARD start 0 []).coords.length = LOOP_GUARD)) := by
  have h := traceLoop_spec (fun i => mask.getD i 0 != 0) width height start ox oy
    LOOP_GUARD start 0 []
  simpa using h

/-- C8: on the 10×10 mask whose only foreground pixel is `(5, 5)`, for
every offset pair the tracer returns a single polygon whose single ring is
the degenerate 1-point ring containing exactly `(5+offsetX, 5+offsetY)`. -/
theorem maskToGeoJSON_single_pixel (ox oy : ℤ) :
    maskToGeoJSON mask10 10 10 ox oy = ⟨[⟨[[(5 + ox, 5 + oy)]]⟩]⟩ := rfl

/-- C4 counterexample: on the 4×4 mask with the 2×2 foreground square at
rows/cols 1..2 and offset `(0, 0)`, the single returned ring has 24 points
and repeats coordinates, so its coordinates are not the boundary pixels
each appearing once. -/
theorem maskToGeoJSON_square_ring_repeats :
    (((maskToGeoJSON mask4 4 4 0 0).features.headD ⟨[]⟩).coordinates.headD []).length = 24 ∧
    ¬ (((maskToGeoJSON mask4 4 4 0 0).features.headD ⟨[]⟩).coordinates.headD []).Nodup := by
  decide

/-- C4 amended: on the 4×4 mask with the 2×2 foreground square at rows/cols
1..2 and offset `(0, 0)`, the tracer returns a single ring that walks the
square's boundary pixels `(1,1), (2,1), (2,2), (1,2)` clockwise six times
over (24 points, ending one step short of the start), because the
closed-loop stop fires only once more than 20 points are collected. -/
theorem maskToGeoJSON_square_six_loops :
    maskToGeoJSON mask4 4 4 0 0 =
      ⟨[⟨[squareCycle ++ squareCycle ++ squareCycle ++ squareCycle ++ squareCycle ++
          squareCycle]⟩]⟩ := by
  decide

end Sam
